import Mathlib

/-!
Shallow embedding of the event-streaming and structured-error core of the
`emailapi` Go SDK (files `events.go` and `errors.go`), together with proofs of
the behavioural properties stated in the specification.

Conventions of the embedding:
* Go `time.Duration` values are modelled as natural numbers of nanoseconds.
  The backoff doubling in `run` converts through `float64`; every delay value
  reachable from `initialDelay` (multiples of 10^9 up to 3·10^10) is far below
  2^53, so the `float64` multiplication by 2 is exact and the `Nat` model is
  faithful on all reachable states.
* Go `int32` fields (`ErrorCode`, `BatchSize`) are modelled as `Int`; no
  arithmetic in the modelled code can overflow 32 bits.
* A Go `map[string]string` is modelled as `Option (List (String × String))`,
  distinguishing a `nil` map (`none`) from a non-nil one (`some assoc`).
* User callbacks are modelled as functions returning a `CallbackOutcome`:
  either they return normally or they raise a runtime panic.  The
  `recover`-based guard of `dispatchEvent` is modelled by the total function
  `dispatchEvent`, whose output records whether a panic was recovered.
* The mutex serialising the ack batcher is modelled by presenting `queueAck`
  and the flush operations as atomic state transformers on `AckBatcher`.
-/

namespace EmailAPI

/-! ## Constants (events.go, reconnection and ack-batching settings) -/

/-- Source `initialDelay = 1 * time.Second`, in nanoseconds. -/
def initialDelay : Nat := 1000000000

/-- Source `maxDelay = 30 * time.Second`, in nanoseconds. -/
def maxDelay : Nat := 30000000000

/-- Source `backoffMultipler = 2` (name kept with the source's spelling). -/
def backoffMultipler : Nat := 2

/-- Source `ackBatchSize = 10`. -/
def ackBatchSize : Nat := 10

/-- Source `ackFlushIntervalMs = 1000 * time.Millisecond`, in nanoseconds. -/
def ackFlushIntervalMs : Nat := 1000000000

/-- Source `AckModeAuto AckMode = "auto"`. -/
def ackModeAuto : String := "auto"

/-- Source `AckModeManual AckMode = "manual"`. -/
def ackModeManual : String := "manual"

/-! ## Error codes and categories (errors.go) -/

/-- Source `ErrCodeUnspecified ErrorCode = 0`. -/
def errCodeUnspecified : Int := 0

/-- Source `ErrCodeInternal ErrorCode = 900`. -/
def errCodeInternal : Int := 900

/-- Source `connect.CodeUnknown` (numeric value of the Connect status code). -/
def codeUnknown : Nat := 2

/-- Source `CategoryAuth = "auth"`. -/
def categoryAuth : String := "auth"

/-- Source `CategoryAuthz = "authz"`. -/
def categoryAuthz : String := "authz"

/-- Source `CategoryValidation = "validation"`. -/
def categoryValidation : String := "validation"

/-- Source `CategoryNotFound = "notfound"`. -/
def categoryNotFound : String := "notfound"

/-- Source `CategoryDomain = "domain"`. -/
def categoryDomain : String := "domain"

/-- Source `CategoryRateLimit = "ratelimit"`. -/
def categoryRateLimit : String := "ratelimit"

/-- Source `CategoryInternal = "internal"`. -/
def categoryInternal : String := "internal"

/-- The structured `Error` type of errors.go: code, message, offending field,
metadata map (`none` models a nil Go map) and underlying Connect status. -/
structure EmailError where
  code : Int
  message : String
  field : String
  metadata : Option (List (String × String))
  connectCode : Nat
deriving DecidableEq, Repr

/-- Source `(*Error).IsCategory` from errors.go: a switch over the category name,
comparing the numeric code against fixed contiguous ranges. -/
def isCategory (e : EmailError) (category : String) : Bool :=
  let c := e.code
  if category = categoryAuth then decide (100 ≤ c ∧ c < 200)
  else if category = categoryAuthz then decide (200 ≤ c ∧ c < 300)
  else if category = categoryValidation then decide (300 ≤ c ∧ c < 400)
  else if category = categoryNotFound then decide (400 ≤ c ∧ c < 410)
  else if category = categoryDomain then decide (500 ≤ c ∧ c < 600)
  else if category = categoryRateLimit then decide (600 ≤ c ∧ c < 700)
  else if category = categoryInternal then decide (900 ≤ c)
  else false

/-- Source `(*Error).Is` from errors.go: equality of codes. -/
def isCode (e : EmailError) (code : Int) : Bool :=
  e.code = code

/-! ## ParseError (errors.go) -/

/-- The `v1.ErrorDetail` payload carried inside a Connect error's details:
`GetCode`, `GetMessage`, `GetField`, `GetMetadata` (a possibly-nil map). -/
structure ErrorDetailMsg where
  code : Int
  message : String
  field : String
  metadata : Option (List (String × String))
deriving DecidableEq, Repr

/-- Outcome of inspecting one Connect error detail whose type URL matched:
`detail.Value()` can fail (`extractFail`, the loop continues), or yield a
proto message that does not expose the ErrorDetail getters (`notEnvelope`,
the loop breaks without extracting), or yield the envelope itself. -/
inductive DetailValue
  | extractFail
  | notEnvelope
  | envelope (d : ErrorDetailMsg)
deriving DecidableEq, Repr

/-- One entry of `connectErr.Details()`: its type URL and its payload. -/
structure ConnectDetail where
  typeUrl : String
  value : DetailValue
deriving DecidableEq, Repr

/-- A `*connect.Error`: status code, message, and attached details. -/
structure ConnectError where
  code : Nat
  message : String
  details : List ConnectDetail
deriving DecidableEq, Repr

/-- A Go `error` as seen by `ParseError`: either `errors.As` finds a
`*connect.Error` in its chain, or it is a plain error whose `Error()`
method returns the given message. -/
inductive GoError
  | plain (msg : String)
  | connectErr (e : ConnectError)
deriving DecidableEq, Repr

/-- The detail-scanning loop of `ParseError` (errors.go lines 183-213):
walk the details; a detail whose type URL differs is skipped; on the first
detail typed `"v1.ErrorDetail"`, a failed `Value()` extraction continues the
scan, and otherwise the fields are extracted (message only overriding when
non-empty, metadata only when non-nil) followed by `break`. -/
def applyDetails (e : EmailError) : List ConnectDetail → EmailError
  | [] => e
  | d :: rest =>
    if d.typeUrl = "v1.ErrorDetail" then
      match d.value with
      | .extractFail => applyDetails e rest
      | .notEnvelope => e
      | .envelope m =>
        { e with
          code := m.code
          message := if m.message ≠ "" then m.message else e.message
          field := m.field
          metadata := match m.metadata with
            | some meta => some meta
            | none => e.metadata }
    else applyDetails e rest

/-- Source `ParseError` from errors.go.  `none` input models a nil `error`; the
result `none` models a nil `*Error`.  A non-Connect error is wrapped with the
unspecified code and `connect.CodeUnknown`; a Connect error seeds the result
with its message, status code and a non-nil empty metadata map, then runs the
detail scan. -/
def parseError : Option GoError → Option EmailError
  | none => none
  | some (.plain msg) =>
    some { code := errCodeUnspecified, message := msg, field := "",
           metadata := none, connectCode := codeUnknown }
  | some (.connectErr ce) =>
    some (applyDetails
      { code := errCodeUnspecified, message := ce.message, field := "",
        metadata := some [], connectCode := ce.code }
      ce.details)

/-! ## Events and dispatch (events.go) -/

/-- The wire event-type discriminant (`v1.EventType`), including the
non-business heartbeat marker.  The receive loop inspects only whether the
type equals the heartbeat marker. -/
inductive EventType
  | unspecified
  | heartbeat
  | sent
  | delivered
  | bounced
  | complained
  | rejected
  | delayed
  | replied
  | failed
deriving DecidableEq, Repr

/-- The `oneof` payload of a `v1.Event`.  Each variant carries the contents of
its generated proto message (recipients, bounce classification, ...) abstracted
as an opaque string: the streaming core passes the message through to the
matching callback without inspecting it. -/
inductive EventPayload
  | emailSent (m : String)
  | emailDelivered (m : String)
  | emailBounced (m : String)
  | emailComplained (m : String)
  | emailRejected (m : String)
  | emailDelayed (m : String)
  | emailReplied (m : String)
  | emailFailed (m : String)
deriving DecidableEq, Repr

/-- A decoded `v1.Event`: identifier (empty when the event is not eligible for
acknowledgment), type discriminant, and optional payload variant (`none`
models an unset `oneof`, e.g. for heartbeats). -/
structure Event where
  id : String
  type : EventType
  payload : Option EventPayload
deriving DecidableEq, Repr

/-- Behaviour of one user-callback invocation: it either returns normally or
raises a runtime panic. -/
inductive CallbackOutcome
  | ok
  | panicked
deriving DecidableEq, Repr

/-- The `EventHandlers` configuration struct: one optional callback per
payload variant (each modelled by its behaviour on the payload message),
the presence of the `OnError` callback, and the `AckMode`/`BatchSize`
settings.  Zero values are the Go defaults (`nil` callbacks, empty
`AckMode`, zero `BatchSize`). -/
structure EventHandlers where
  onSent : Option (String → CallbackOutcome) := none
  onDelivered : Option (String → CallbackOutcome) := none
  onBounced : Option (String → CallbackOutcome) := none
  onComplained : Option (String → CallbackOutcome) := none
  onRejected : Option (String → CallbackOutcome) := none
  onDelayed : Option (String → CallbackOutcome) := none
  onReplied : Option (String → CallbackOutcome) := none
  onFailed : Option (String → CallbackOutcome) := none
  onError : Bool := false
  ackMode : String := ""
  batchSize : Int := 0

/-- Observable outcome of one `dispatchEvent` call: the list of structured
errors passed to `OnError` during the call, and whether the deferred
`recover` fired (observable through the panic log line).  `dispatchEvent`
always returns normally, so the outcome is a total value. -/
structure DispatchOutcome where
  errorCalls : List EmailError
  recovered : Bool
deriving DecidableEq, Repr

/-- The error reported by the `recover` branch of `dispatchEvent`:
`&Error{Code: ErrCodeInternal, Message: "panic in event handler"}` (all other
fields at their zero values). -/
def panicDispatchError : EmailError :=
  { code := errCodeInternal, message := "panic in event handler",
    field := "", metadata := none, connectCode := 0 }

/-- The guarded invocation of one user callback inside `dispatchEvent`: a
normal return produces no observable effect; a panic is recovered, and, when
`OnError` is set, converted into exactly one `OnError` call carrying the
internal-error code. -/
def invokeGuarded (h : EventHandlers) (f : String → CallbackOutcome)
    (m : String) : DispatchOutcome :=
  match f m with
  | .ok => { errorCalls := [], recovered := false }
  | .panicked =>
    { errorCalls := if h.onError then [panicDispatchError] else [],
      recovered := true }

/-- The variant-to-callback selection of the `switch` in `dispatchEvent`:
each payload variant names the handler field of `EventHandlers` that the
corresponding `case` consults, together with the message it would pass. -/
def variantHandler (h : EventHandlers) :
    EventPayload → Option (String → CallbackOutcome) × String
  | .emailSent m => (h.onSent, m)
  | .emailDelivered m => (h.onDelivered, m)
  | .emailBounced m => (h.onBounced, m)
  | .emailComplained m => (h.onComplained, m)
  | .emailRejected m => (h.onRejected, m)
  | .emailDelayed m => (h.onDelayed, m)
  | .emailReplied m => (h.onReplied, m)
  | .emailFailed m => (h.onFailed, m)

/-- Source `dispatchEvent` from events.go: switch on the payload variant, invoke the
matching callback when it is set (guarded by the deferred `recover`), and do
nothing for an absent callback or an unset payload. -/
def dispatchEvent (h : EventHandlers) (e : Event) : DispatchOutcome :=
  match e.payload with
  | some p =>
    match variantHandler h p with
    | (some f, m) => invokeGuarded h f m
    | (none, _) => { errorCalls := [], recovered := false }
  | none => { errorCalls := [], recovered := false }

/-- The receive loop of one session dispatches each non-heartbeat event in
order through `dispatchEvent`; since every `dispatchEvent` call returns
normally, the sequence of outcomes is the elementwise image of the events. -/
def dispatchSeq (h : EventHandlers) (events : List Event) :
    List DispatchOutcome :=
  events.map (dispatchEvent h)

/-! ## StreamSession receive loop (events.go, `stream`) -/

/-- Observable log of one session's receive loop: the events passed to
`dispatchEvent`, in order, and the identifiers passed to `queueAck`,
in order. -/
structure SessionLog where
  dispatched : List Event
  queued : List String
deriving DecidableEq, Repr

/-- The per-event body of `stream`'s receive loop (events.go lines 186-207)
folded over the received events: a heartbeat is skipped entirely; any other
event is dispatched, and its identifier is queued for acknowledgment exactly
when `AckMode == AckModeAuto` and the identifier is non-empty. -/
def processEvents (h : EventHandlers) : List Event → SessionLog
  | [] => { dispatched := [], queued := [] }
  | e :: rest =>
    if e.type = EventType.heartbeat then processEvents h rest
    else
      let log := processEvents h rest
      { dispatched := e :: log.dispatched
        queued :=
          (if h.ackMode = ackModeAuto ∧ e.id ≠ "" then [e.id] else []) ++
            log.queued }

/-- The defaulting performed at the top of `OnReceive` (events.go lines
117-123): an empty `AckMode` becomes `AckModeAuto`, and a `BatchSize` of at
most zero becomes 10. -/
def onReceiveDefaults (h : EventHandlers) : EventHandlers :=
  { h with
    ackMode := if h.ackMode = "" then ackModeAuto else h.ackMode
    batchSize := if h.batchSize ≤ 0 then 10 else h.batchSize }

/-! ## AckBatcher (events.go, `queueAck` / `flushAcks` / `flushAcksLocked`) -/

/-- The ack-batching state owned by one `eventStreamer`: the pending
identifier list and the scheduled flush timer (`some d` models a live
`*time.Timer` scheduled `d` nanoseconds ahead; `none` models a nil timer).
Every mutation below models one critical section of `pendingAcksMu`. -/
structure AckBatcher where
  pendingAcks : List String
  ackTimer : Option Nat
deriving DecidableEq, Repr

/-- Source `flushAcksLocked` from events.go: on an empty pending list, return with no
effect; otherwise stop and clear any scheduled timer, swap the pending list
for a fresh empty one, and issue the acknowledgment call with the swapped-out
identifiers (returned as `some batch`; the call itself is fire-and-forget). -/
def flushAcksLocked (s : AckBatcher) : AckBatcher × Option (List String) :=
  if s.pendingAcks = [] then (s, none)
  else ({ pendingAcks := [], ackTimer := none }, some s.pendingAcks)

/-- Source `flushAcks` from events.go: take the lock and run `flushAcksLocked`. -/
def flushAcks (s : AckBatcher) : AckBatcher × Option (List String) :=
  flushAcksLocked s

/-- Source `queueAck` from events.go: under the lock, append the identifier to the
pending list; if the list has reached `ackBatchSize`, flush immediately;
otherwise schedule a flush timer for `ackFlushIntervalMs` if none is
scheduled. -/
def queueAck (s : AckBatcher) (eventID : String) :
    AckBatcher × Option (List String) :=
  let s1 : AckBatcher := { s with pendingAcks := s.pendingAcks ++ [eventID] }
  if ackBatchSize ≤ s1.pendingAcks.length then
    flushAcksLocked s1
  else if s1.ackTimer = none then
    ({ s1 with ackTimer := some ackFlushIntervalMs }, none)
  else
    (s1, none)

/-- A sequence of `queueAck` calls, recording the flush result of each call
in order. -/
def queueAckRun (s : AckBatcher) :
    List String → AckBatcher × List (Option (List String))
  | [] => (s, [])
  | id :: rest =>
    ((queueAckRun (queueAck s id).1 rest).1,
      (queueAck s id).2 :: (queueAckRun (queueAck s id).1 rest).2)

/-! ## EventStreamer orchestration loop (events.go, `run`) -/

/-- One backoff update of `run` (events.go lines 169-172): double the current
delay (exact in `float64` for all reachable values) and cap it at
`maxDelay`. -/
def nextDelay (d : Nat) : Nat :=
  let doubled := d * backoffMultipler
  if maxDelay < doubled then maxDelay else doubled

/-- The three cancellation checkpoints of `run`'s loop body: the `select` at
the loop top, the `select` after `stream` returns, and the `select` racing the
backoff timer. -/
inductive Checkpoint
  | loopTop
  | postSession
  | backoffSleep
deriving DecidableEq, Repr

/-- Environment input consumed by one iteration of `run`: whether the
cancellation scope is observed done at each checkpoint, and whether the
`stream` session of the iteration returned a non-nil error. -/
structure IterInput where
  cancelTop : Bool
  sessionErr : Bool
  cancelPost : Bool
  cancelSleep : Bool
deriving DecidableEq, Repr

/-- Observable actions of `run`, in program order: a `stream` session
attempt, an `OnError` invocation, a `flushAcks` call, a completed backoff
sleep of the given duration, the observation of cancellation at a checkpoint,
and the return of `run`. -/
inductive RunAction
  | sessionAttempt
  | onErrorCall
  | flush
  | sleep (d : Nat)
  | cancelObserved (cp : Checkpoint)
  | terminated
deriving DecidableEq, Repr

/-- The action trace of `run` (events.go lines 135-174), driven by a finite
list of per-iteration inputs (an empty list truncates the otherwise unbounded
loop) with the current backoff delay threaded through.  Each iteration:
observe cancellation at the loop top (flush and return), run one session,
observe cancellation post-session (flush and return), report a non-nil
session error through `OnError` when that callback is set, flush acks, then
either observe cancellation during the backoff sleep (return, without a
further flush) or complete the sleep and continue with the doubled, capped
delay. -/
def runTrace (onErrorSet : Bool) : List IterInput → Nat → List RunAction
  | [], _ => []
  | inp :: rest, delay =>
    if inp.cancelTop then
      [.cancelObserved .loopTop, .flush, .terminated]
    else
      .sessionAttempt ::
        if inp.cancelPost then
          [.cancelObserved .postSession, .flush, .terminated]
        else
          (if inp.sessionErr && onErrorSet then [.onErrorCall] else []) ++
            .flush ::
              if inp.cancelSleep then
                [.cancelObserved .backoffSleep, .terminated]
              else
                .sleep delay :: runTrace onErrorSet rest (nextDelay delay)

/-- The durations of the completed backoff sleeps of a trace, in order. -/
def sleeps (trace : List RunAction) : List Nat :=
  trace.filterMap fun a =>
    match a with
    | .sleep d => some d
    | _ => none

/-- The part of a trace strictly after the first occurrence of the given
action (the whole scan yields `[]` when the action does not occur). -/
def suffixAfter (a : RunAction) : List RunAction → List RunAction
  | [] => []
  | x :: xs => if x = a then xs else suffixAfter a xs

/-- An iteration input with no cancellation observed at any checkpoint. -/
def IterInput.noCancel (inp : IterInput) : Prop :=
  inp.cancelTop = false ∧ inp.cancelPost = false ∧ inp.cancelSleep = false

instance (inp : IterInput) : Decidable inp.noCancel := by
  unfold IterInput.noCancel
  infer_instance

/-- The terminal actions `run` emits once cancellation is observed at a given
checkpoint: at the loop-top and post-session checkpoints a flush follows the
observation; at the backoff-sleep checkpoint the unconditional flush of line
160 precedes the observation and the loop returns without a further flush. -/
def cancelTail : Checkpoint → List RunAction
  | .loopTop => [.cancelObserved .loopTop, .flush, .terminated]
  | .postSession => [.cancelObserved .postSession, .flush, .terminated]
  | .backoffSleep => [.flush, .cancelObserved .backoffSleep, .terminated]

/-- Specification-side predicate for `IsCategory`, written from the category
table of the spec: a category name together with the contiguous code range it
covers; an undeclared name covers nothing. -/
def categoryCodeRange (category : String) (c : Int) : Prop :=
  (category = categoryAuth ∧ 100 ≤ c ∧ c < 200) ∨
  (category = categoryAuthz ∧ 200 ≤ c ∧ c < 300) ∨
  (category = categoryValidation ∧ 300 ≤ c ∧ c < 400) ∨
  (category = categoryNotFound ∧ 400 ≤ c ∧ c < 410) ∨
  (category = categoryDomain ∧ 500 ≤ c ∧ c < 600) ∨
  (category = categoryRateLimit ∧ 600 ≤ c ∧ c < 700) ∨
  (category = categoryInternal ∧ 900 ≤ c)

/-! ## Theorems -/

/-- C8: for every error code and every category name, `IsCategory` returns
true exactly when the code lies in that category's fixed contiguous range
(auth [100,200), authz [200,300), validation [300,400), notfound [400,410),
domain [500,600), ratelimit [600,700), internal [900,∞)); an undeclared
category name always yields false.  In particular code 501 is `domain` and
not `validation`, and code 450 lies in no declared category. -/
theorem isCategory_iff_range (e : EmailError) (category : String) :
    isCategory e category = true ↔ categoryCodeRange category e.code := by
  unfold isCategory categoryCodeRange
  split_ifs with h1 h2 h3 h4 h5 h6 h7 <;>
    simp_all [categoryAuth, categoryAuthz, categoryValidation,
      categoryNotFound, categoryDomain, categoryRateLimit, categoryInternal]

/-- Closed instance of C8 obtained from `isCategory_iff_range`: code 501 is in
the domain category and not the validation category, code 450 is in no
declared category, and an undeclared name yields false. -/
theorem isCategory_iff_range_witness :
    isCategory ⟨501, "", "", none, 0⟩ categoryDomain = true
    ∧ isCategory ⟨501, "", "", none, 0⟩ categoryValidation = false
    ∧ isCategory ⟨450, "", "", none, 0⟩ categoryNotFound = false
    ∧ isCategory ⟨450, "", "", none, 0⟩ categoryDomain = false
    ∧ isCategory ⟨501, "", "", none, 0⟩ "bogus" = false := by
  refine ⟨?_, ?_, ?_, ?_, ?_⟩
  · exact (isCategory_iff_range ⟨501, "", "", none, 0⟩ categoryDomain).mpr
      (by unfold categoryCodeRange; decide)
  all_goals decide

/-- C10: flushing with an empty pending-ack list is a complete no-op (the
state, including the scheduled-timer field, is returned unchanged and no
acknowledgment call is issued), and an acknowledgment call is issued exactly
when the swapped-out list is non-empty, in which case the pending list
becomes empty, the timer is stopped, and the batch is the whole pending
list. -/
theorem flushAcks_empty_noop (s : AckBatcher) :
    (s.pendingAcks = [] → flushAcksLocked s = (s, none) ∧ flushAcks s = (s, none))
    ∧ ((flushAcksLocked s).2.isSome ↔ s.pendingAcks ≠ [])
    ∧ (s.pendingAcks ≠ [] →
        flushAcksLocked s = ({ pendingAcks := [], ackTimer := none }, some s.pendingAcks)) := by
  unfold flushAcks flushAcksLocked
  by_cases hp : s.pendingAcks = [] <;> simp [hp]

/-- Closed instance of C10 via `flushAcks_empty_noop`: an empty batcher with a
scheduled timer is untouched by a flush and no ack call is issued. -/
theorem flushAcks_empty_noop_witness :
    flushAcksLocked ⟨[], some ackFlushIntervalMs⟩ =
      (⟨[], some ackFlushIntervalMs⟩, none)
    ∧ flushAcks ⟨[], some ackFlushIntervalMs⟩ =
      (⟨[], some ackFlushIntervalMs⟩, none) := by
  exact (flushAcks_empty_noop ⟨[], some ackFlushIntervalMs⟩).1 rfl

/-- C5: a received heartbeat event is skipped entirely by the session's
receive loop: the session log (dispatch calls and queued ack identifiers) is
exactly the log of the remaining events, for every handler configuration and
in either ack mode; consequently no event of heartbeat type ever appears
among the dispatched events. -/
theorem heartbeat_skipped (h : EventHandlers) :
    (∀ (e : Event) (rest : List Event), e.type = EventType.heartbeat →
      processEvents h (e :: rest) = processEvents h rest)
    ∧ (∀ events : List Event, ∀ e ∈ (processEvents h events).dispatched,
        e.type ≠ EventType.heartbeat) := by
  constructor
  · intro e rest he
    simp [processEvents, he]
  · intro events
    induction events with
    | nil => simp [processEvents]
    | cons e rest ih =>
      by_cases he : e.type = EventType.heartbeat
      · simpa [processEvents, he] using ih
      · intro x hx
        rcases (by simpa [processEvents, he] using hx : x = e ∨ x ∈ (processEvents h rest).dispatched) with hxe | hxm
        · subst hxe; exact he
        · exact ih x hxm

/-- Closed instance of C5 via `heartbeat_skipped`: a heartbeat leaves the
session log of an auto-mode session unchanged. -/
theorem heartbeat_skipped_witness :
    processEvents { ackMode := "auto" }
        [⟨"hb", EventType.heartbeat, none⟩, ⟨"e1", EventType.sent, some (EventPayload.emailSent "m")⟩] =
      processEvents { ackMode := "auto" }
        [⟨"e1", EventType.sent, some (EventPayload.emailSent "m")⟩] := by
  exact (heartbeat_skipped { ackMode := "auto" }).1
    ⟨"hb", EventType.heartbeat, none⟩
    [⟨"e1", EventType.sent, some (EventPayload.emailSent "m")⟩] rfl

/-- C6: a non-heartbeat event with an empty identifier is dispatched but
contributes nothing to the ack queue, for every handler configuration
including auto mode; moreover the empty identifier is never present in the
queued-ack list of any session. -/
theorem empty_id_dispatched_not_acked (h : EventHandlers) :
    (∀ (e : Event) (rest : List Event),
      e.type ≠ EventType.heartbeat → e.id = "" →
      processEvents h (e :: rest) =
        { dispatched := e :: (processEvents h rest).dispatched,
          queued := (processEvents h rest).queued })
    ∧ (∀ events : List Event, "" ∉ (processEvents h events).queued) := by
  constructor
  · intro e rest he hid
    simp [processEvents, he, hid]
  · intro events
    induction events with
    | nil => simp [processEvents]
    | cons e rest ih =>
      by_cases he : e.type = EventType.heartbeat
      · simpa [processEvents, he] using ih
      · intro hx
        rcases (by simpa [processEvents, he] using hx :
            ("" ∈ if h.ackMode = ackModeAuto ∧ e.id ≠ "" then [e.id] else ([] : List String)) ∨
              "" ∈ (processEvents h rest).queued) with hxe | hxm
        · by_cases hc : h.ackMode = ackModeAuto ∧ e.id ≠ ""
          · rw [if_pos hc] at hxe
            simp only [List.mem_singleton] at hxe
            exact absurd hxe.symm hc.2
          · rw [if_neg hc] at hxe
            simp at hxe
        · exact ih hxm

/-- Closed instance of C6 via `empty_id_dispatched_not_acked`: in auto mode an
empty-id sent event is dispatched and nothing is queued. -/
theorem empty_id_dispatched_not_acked_witness :
    processEvents { ackMode := "auto" } [⟨"", EventType.sent, some (EventPayload.emailSent "m")⟩] =
      { dispatched := [⟨"", EventType.sent, some (EventPayload.emailSent "m")⟩], queued := [] } := by
  have h := (empty_id_dispatched_not_acked { ackMode := "auto" }).1
    ⟨"", EventType.sent, some (EventPayload.emailSent "m")⟩ [] (by decide) rfl
  exact h.trans (by simp [processEvents])

/-- C7 (amended): `ParseError` of nil is nil; a non-Connect error is wrapped
with the unspecified code, the unknown transport status, and the raw message;
a Connect error without the structured envelope keeps its own transport
status and message with the unspecified code; when the detail scan reaches
the envelope it extracts code, field, and metadata, overriding the transport
message only when the envelope message is non-empty; details of another type,
and envelope-typed details whose extraction fails, are skipped. -/
theorem parseError_characterization :
    parseError none = none
    ∧ (∀ msg, parseError (some (.plain msg)) =
        some ⟨errCodeUnspecified, msg, "", none, codeUnknown⟩)
    ∧ (∀ (c : Nat) (msg : String), parseError (some (.connectErr ⟨c, msg, []⟩)) =
        some ⟨errCodeUnspecified, msg, "", some [], c⟩)
    ∧ (∀ (c : Nat) (msg : String) (d : ErrorDetailMsg) (rest : List ConnectDetail),
        parseError (some (.connectErr ⟨c, msg, ⟨"v1.ErrorDetail", .envelope d⟩ :: rest⟩)) =
          some ⟨d.code, if d.message = "" then msg else d.message, d.field,
            some (d.metadata.getD []), c⟩)
    ∧ (∀ (c : Nat) (msg : String) (dd : ConnectDetail) (rest : List ConnectDetail),
        dd.typeUrl ≠ "v1.ErrorDetail" →
        parseError (some (.connectErr ⟨c, msg, dd :: rest⟩)) =
          parseError (some (.connectErr ⟨c, msg, rest⟩)))
    ∧ (∀ (c : Nat) (msg : String) (rest : List ConnectDetail),
        parseError (some (.connectErr ⟨c, msg, ⟨"v1.ErrorDetail", .extractFail⟩ :: rest⟩)) =
          parseError (some (.connectErr ⟨c, msg, rest⟩))) := by
  refine ⟨rfl, fun msg => rfl, fun c msg => rfl, ?_, ?_, ?_⟩
  · intro c msg d rest
    simp only [parseError, applyDetails, if_pos rfl]
    rcases hm : d.message with _ | _
    all_goals rcases hmeta : d.metadata with _ | meta
    all_goals simp_all [applyDetails]
  · intro c msg dd rest hty
    rcases dd with ⟨ty, v⟩
    simp only [parseError, applyDetails]
    rw [if_neg (by simpa using hty)]
  · intro c msg rest
    simp [parseError, applyDetails]

/-- C7 counterexample to the claim as stated: a Connect error carrying status
code 5 (`CodeNotFound`) and no envelope detail is a non-nil error without the
service's structured envelope, yet `ParseError` preserves its transport
status code 5 instead of the unknown status. -/
theorem parseError_claim_counterexample :
    parseError (some (.connectErr ⟨5, "not found", []⟩)) =
      some ⟨errCodeUnspecified, "not found", "", some [], 5⟩
    ∧ (5 : Nat) ≠ codeUnknown := by
  exact ⟨rfl, by decide⟩

/-- Closed instance of C7 via `parseError_characterization`: an enveloped
error with code 501 and an empty envelope message keeps the transport message
and classifies as a domain error. -/
theorem parseError_characterization_witness :
    parseError (some (.connectErr ⟨3, "invalid",
        [⟨"v1.ErrorDetail", .envelope ⟨501, "", "domain", some [("k", "v")]⟩⟩]⟩)) =
      some ⟨501, "invalid", "domain", some [("k", "v")], 3⟩ := by
  have h := parseError_characterization.2.2.2.1 3 "invalid"
    ⟨501, "", "domain", some [("k", "v")]⟩ []
  exact h.trans (by decide)

/-- C9: `OnReceive` normalizes the configuration before streaming: an empty
`AckMode` becomes auto and a non-positive `BatchSize` becomes 10, while any
non-empty `AckMode` (including a misspelling) and positive `BatchSize` are
kept as given; only the exact mode string `"auto"` enables automatic
acknowledgment — under any other mode a session queues no acks at all, and
the dispatched events do not depend on the ack mode, so a misspelled mode
silently behaves like manual mode. -/
theorem onReceive_normalization (h : EventHandlers) (events : List Event) :
    (h.ackMode = "" → (onReceiveDefaults h).ackMode = ackModeAuto)
    ∧ (h.ackMode ≠ "" → (onReceiveDefaults h).ackMode = h.ackMode)
    ∧ (h.batchSize ≤ 0 → (onReceiveDefaults h).batchSize = 10)
    ∧ (0 < h.batchSize → (onReceiveDefaults h).batchSize = h.batchSize)
    ∧ (h.ackMode ≠ ackModeAuto → (processEvents h events).queued = [])
    ∧ (processEvents h events).dispatched =
        (processEvents { h with ackMode := ackModeAuto } events).dispatched := by
  refine ⟨?_, ?_, ?_, ?_, ?_, ?_⟩
  · intro he; simp [onReceiveDefaults, he]
  · intro he; simp [onReceiveDefaults, he]
  · intro hb; simp [onReceiveDefaults, hb]
  · intro hb; simp [onReceiveDefaults, Int.not_le.mpr hb]
  · intro hm
    induction events with
    | nil => simp [processEvents]
    | cons e rest ih =>
      by_cases he : e.type = EventType.heartbeat <;>
        simp [processEvents, he, ih, hm]
  · induction events with
    | nil => simp [processEvents]
    | cons e rest ih =>
      by_cases he : e.type = EventType.heartbeat <;>
        simp [processEvents, he, ih]

/-- Closed instance of C9 via `onReceive_normalization`: the misspelled mode
`"atuo"` survives normalization unchanged, a negative batch size becomes 10,
and a session under `"atuo"` dispatches its event but queues no ack. -/
theorem onReceive_normalization_witness :
    (onReceiveDefaults { ackMode := "atuo", batchSize := -3 }).ackMode = "atuo"
    ∧ (onReceiveDefaults { ackMode := "atuo", batchSize := -3 }).batchSize = 10
    ∧ (processEvents { ackMode := "atuo", batchSize := -3 }
        [⟨"e1", EventType.sent, some (EventPayload.emailSent "m")⟩]).queued = [] := by
  have h := onReceive_normalization { ackMode := "atuo", batchSize := -3 }
    [⟨"e1", EventType.sent, some (EventPayload.emailSent "m")⟩]
  exact ⟨h.2.1 (by decide), h.2.2.1 (by decide), h.2.2.2.2.1 (by decide)⟩

/-- C1: a user callback that panics during dispatch is caught inside
`dispatchEvent` (the call returns normally with the recover flag set), it
produces exactly one `OnError` call carrying the internal-error code when
`OnError` is set and none otherwise, and the dispatch of every subsequent
event — of any variant, through the same handlers — yields exactly the
outcome it would have yielded had the failing callback returned normally
(the tail of the outcome sequence does not depend on the failing event at
all). -/
theorem dispatch_panic_isolated (h : EventHandlers) (e : Event)
    (es : List Event) (hp : (dispatchEvent h e).recovered = true) :
    (dispatchEvent h e).errorCalls =
      (if h.onError then [panicDispatchError] else [])
    ∧ panicDispatchError.code = errCodeInternal
    ∧ dispatchSeq h (e :: es) = dispatchEvent h e :: dispatchSeq h es
    ∧ ∀ e' : Event, dispatchSeq h (e' :: es) = dispatchEvent h e' :: dispatchSeq h es := by
  refine ⟨?_, rfl, rfl, fun e' => rfl⟩
  rcases e with ⟨eid, ety, epl⟩
  rcases epl with _ | p
  · simp [dispatchEvent] at hp
  · simp only [dispatchEvent] at hp ⊢
    rcases hv : variantHandler h p with ⟨o, m⟩
    rw [hv] at hp
    rcases o with _ | f
    · simp at hp
    · rcases hf : f m with _ | _
      · simp [invokeGuarded, hf] at hp
      · simp [invokeGuarded, hf]

/-- Closed instance of C1 via `dispatch_panic_isolated`: a panicking `OnSent`
callback with `OnError` set yields exactly one internal-error `OnError` call,
and the following delivered event is dispatched exactly as it would have been
on its own. -/
theorem dispatch_panic_isolated_witness :
    (dispatchEvent { onSent := some (fun _ => CallbackOutcome.panicked), onError := true }
        ⟨"id1", EventType.sent, some (EventPayload.emailSent "m1")⟩).errorCalls =
      [panicDispatchError]
    ∧ dispatchSeq { onSent := some (fun _ => CallbackOutcome.panicked), onError := true }
        [⟨"id1", EventType.sent, some (EventPayload.emailSent "m1")⟩,
         ⟨"id2", EventType.delivered, some (EventPayload.emailDelivered "m2")⟩] =
      dispatchEvent { onSent := some (fun _ => CallbackOutcome.panicked), onError := true }
          ⟨"id1", EventType.sent, some (EventPayload.emailSent "m1")⟩ ::
        dispatchSeq { onSent := some (fun _ => CallbackOutcome.panicked), onError := true }
          [⟨"id2", EventType.delivered, some (EventPayload.emailDelivered "m2")⟩] := by
  have h := dispatch_panic_isolated
    { onSent := some (fun _ => CallbackOutcome.panicked), onError := true }
    ⟨"id1", EventType.sent, some (EventPayload.emailSent "m1")⟩
    [⟨"id2", EventType.delivered, some (EventPayload.emailDelivered "m2")⟩] rfl
  exact ⟨h.1.trans (by simp), h.2.2.1⟩

/-- Filling the batcher to the threshold: starting from any state whose
pending list and the queued identifiers together reach exactly
`ackBatchSize`, every call but the last flushes nothing and the last call
synchronously flushes the whole accumulated list in order, leaving an empty
batcher with no timer. -/
lemma queueAckRun_fill (ids : List String) :
    ∀ s : AckBatcher, ids ≠ [] →
    s.pendingAcks.length + ids.length = ackBatchSize →
    queueAckRun s ids =
      (⟨[], none⟩,
        List.replicate (ids.length - 1) none ++ [some (s.pendingAcks ++ ids)]) := by
  induction ids with
  | nil => intro s hne _; exact absurd rfl hne
  | cons id rest ih =>
    intro s _ hlen
    simp only [List.length_cons] at hlen
    rcases rest with _ | ⟨id2, rest2⟩
    · have hcond : ackBatchSize ≤ s.pendingAcks.length + 1 := by
        simp at hlen
        omega
      have hq : queueAck s id = (⟨[], none⟩, some (s.pendingAcks ++ [id])) := by
        simp [queueAck, flushAcksLocked, hcond]
      rw [queueAckRun, hq]
      simp [queueAckRun]
    · have hlen2 : (s.pendingAcks ++ [id]).length + (id2 :: rest2).length
          = ackBatchSize := by
        simp only [List.length_cons, List.length_append, List.length_nil] at hlen ⊢
        omega
      have hcond : ¬ ackBatchSize ≤ s.pendingAcks.length + 1 := by
        simp only [List.length_cons] at hlen
        omega
      by_cases ht : s.ackTimer = none
      · have hq : queueAck s id =
            (⟨s.pendingAcks ++ [id], some ackFlushIntervalMs⟩, none) := by
          simp [queueAck, hcond, ht]
        have hstep := ih ⟨s.pendingAcks ++ [id], some ackFlushIntervalMs⟩
          (by simp) hlen2
        rw [queueAckRun, hq]
        simp only at hstep
        rw [hstep]
        simp [List.replicate_succ]
      · have hq : queueAck s id = (⟨s.pendingAcks ++ [id], s.ackTimer⟩, none) := by
          simp [queueAck, hcond, ht]
        have hstep := ih ⟨s.pendingAcks ++ [id], s.ackTimer⟩ (by simp) hlen2
        rw [queueAckRun, hq]
        simp only at hstep
        rw [hstep]
        simp [List.replicate_succ]

/-- C3: `queue(id)` appends the identifier (the mutex serialising the
batcher is modelled by atomicity of `queueAck`); after exactly `ackBatchSize
= 10` queue calls on an initially empty pending list with no intervening
flush, the tenth call synchronously flushes exactly those 10 identifiers in
order and leaves the pending set empty with the timer stopped, the first
nine calls flushing nothing; and a call that leaves the list below the
threshold appends the identifier and schedules a timer for the flush
interval exactly when none is scheduled. -/
theorem queueAck_batch_flush :
    (∀ (ids : List String) (t : Option Nat), ids.length = ackBatchSize →
      queueAckRun ⟨[], t⟩ ids =
        (⟨[], none⟩, List.replicate (ackBatchSize - 1) none ++ [some ids]))
    ∧ (∀ (s : AckBatcher) (id : String),
        s.pendingAcks.length + 1 < ackBatchSize →
        queueAck s id =
          ({ pendingAcks := s.pendingAcks ++ [id],
             ackTimer := if s.ackTimer = none then some ackFlushIntervalMs
               else s.ackTimer }, none)) := by
  constructor
  · intro ids t hlen
    have hne : ids ≠ [] := by
      intro hnil
      rw [hnil] at hlen
      simp [ackBatchSize] at hlen
    have h := queueAckRun_fill ids ⟨[], t⟩ hne (by simpa using hlen)
    simpa [hlen] using h
  · intro s id hl
    have hcond : ¬ ackBatchSize ≤ s.pendingAcks.length + 1 := by omega
    by_cases ht : s.ackTimer = none <;>
      simp [queueAck, hcond, ht]

/-- Closed instance of C3 via `queueAck_batch_flush`: queueing ten
identifiers into an empty batcher flushes nothing nine times, then flushes
all ten in order, leaving the batcher empty. -/
theorem queueAck_batch_flush_witness :
    queueAckRun ⟨[], none⟩ ["a", "b", "c", "d", "e", "f", "g", "h", "i", "j"] =
      (⟨[], none⟩,
        [none, none, none, none, none, none, none, none, none,
          some ["a", "b", "c", "d", "e", "f", "g", "h", "i", "j"]]) := by
  have h := queueAck_batch_flush.1
    ["a", "b", "c", "d", "e", "f", "g", "h", "i", "j"] none rfl
  exact h.trans (by simp [ackBatchSize])

/-- One backoff step on a capped delay: doubling-with-cap of `min a maxDelay`
is `min (2 a) maxDelay`. -/
lemma nextDelay_min (a : Nat) :
    nextDelay (min a maxDelay) = min (a * backoffMultipler) maxDelay := by
  simp only [nextDelay, backoffMultipler, maxDelay]
  rcases le_total a 30000000000 with h | h
  · rw [Nat.min_eq_left h]
    split_ifs <;> omega
  · rw [Nat.min_eq_right h]
    split_ifs <;> omega

/-- Closed form of the delay sequence: after `k` completed backoff sleeps the
current delay is `min (initialDelay * backoffMultipler ^ k) maxDelay`. -/
lemma delayIter_closed (k : Nat) :
    nextDelay^[k] initialDelay =
      min (initialDelay * backoffMultipler ^ k) maxDelay := by
  induction k with
  | zero =>
    simp only [Function.iterate_zero_apply, pow_zero, mul_one]
    rw [Nat.min_eq_left (by norm_num [initialDelay, maxDelay])]
  | succ k ih =>
    rw [Function.iterate_succ_apply', ih, nextDelay_min, pow_succ, mul_assoc]

/-- The completed backoff sleeps of a cancellation-free run are the iterates
of `nextDelay` on the starting delay, one per driven iteration. -/
lemma runTrace_sleeps (oe : Bool) (inputs : List IterInput) :
    ∀ d : Nat, (∀ inp ∈ inputs, inp.noCancel) →
    sleeps (runTrace oe inputs d) =
      (List.range inputs.length).map (fun k => nextDelay^[k] d) := by
  induction inputs with
  | nil => intro d _; simp [runTrace, sleeps]
  | cons inp rest ih =>
    intro d hnc
    obtain ⟨h1, h2, h3⟩ := hnc inp (List.mem_cons_self _ _)
    have htail := ih (nextDelay d) fun i hi => hnc i (List.mem_cons_of_mem _ hi)
    by_cases hoe : (inp.sessionErr && oe) = true <;>
      simp [runTrace, h1, h2, h3, hoe, sleeps, List.filterMap_append,
        htail, List.range_succ_eq_map, Function.iterate_succ_apply,
        Function.comp_def] at htail ⊢ <;>
      exact htail

/-- C2: for every sequence of stream sessions driven to completion without
cancellation — the session outcomes being arbitrary, so in particular
successful (clean-end) sessions never reset the delay — the backoff sleep
before retry attempt `n` (the `n`-th completed sleep, `k = n - 1` below) is
exactly `min (initialDelay * backoffMultipler ^ (n-1)) maxDelay`: with the
source constants 1s initial delay, multiplier 2 and 30s cap this is the
sequence 1, 2, 4, 8, 16, 30, 30, 30, ... seconds. -/
theorem backoff_delay_schedule (oe : Bool) (inputs : List IterInput)
    (hnc : ∀ inp ∈ inputs, inp.noCancel) :
    sleeps (runTrace oe inputs initialDelay) =
      (List.range inputs.length).map
        (fun k => min (initialDelay * backoffMultipler ^ k) maxDelay) := by
  rw [runTrace_sleeps oe inputs initialDelay hnc]
  simp only [delayIter_closed]

/-- Closed instance of C2 via `backoff_delay_schedule`: eight consecutive
sessions (four failing, then four ending cleanly) sleep 1, 2, 4, 8, 16, 30,
30, 30 seconds — the clean sessions do not reset the delay. -/
theorem backoff_delay_schedule_witness :
    sleeps (runTrace true
        [⟨false, true, false, false⟩, ⟨false, true, false, false⟩,
         ⟨false, true, false, false⟩, ⟨false, true, false, false⟩,
         ⟨false, false, false, false⟩, ⟨false, false, false, false⟩,
         ⟨false, false, false, false⟩, ⟨false, false, false, false⟩]
        initialDelay) =
      [1000000000, 2000000000, 4000000000, 8000000000, 16000000000,
        30000000000, 30000000000, 30000000000] := by
  rw [backoff_delay_schedule true _ (by decide)]
  decide

/-- The suffix after an absent action is empty. -/
lemma suffixAfter_of_not_mem (a : RunAction) (l : List RunAction)
    (h : a ∉ l) : suffixAfter a l = [] := by
  induction l with
  | nil => rfl
  | cons x xs ih =>
    simp only [List.mem_cons, not_or] at h
    rw [suffixAfter, if_neg fun hx => h.1 hx.symm]
    exact ih h.2

/-- The suffix scan skips over a prefix that does not contain the action. -/
lemma suffixAfter_append_not_mem (a : RunAction) (l1 l2 : List RunAction)
    (h : a ∉ l1) : suffixAfter a (l1 ++ l2) = suffixAfter a l2 := by
  induction l1 with
  | nil => rfl
  | cons x xs ih =>
    simp only [List.mem_cons, not_or] at h
    rw [List.cons_append, suffixAfter, if_neg fun hx => h.1 hx.symm]
    exact ih h.2

/-- Shape of every `run` trace with respect to cancellation: either no
cancellation is ever observed, or the trace is a cancellation-free prefix
followed by the terminal actions of the checkpoint at which cancellation was
observed. -/
lemma runTrace_cancel_shape (oe : Bool) (inputs : List IterInput) :
    ∀ d : Nat,
    (∀ cp, RunAction.cancelObserved cp ∉ runTrace oe inputs d) ∨
    (∃ pre cp, runTrace oe inputs d = pre ++ cancelTail cp ∧
      ∀ cp', RunAction.cancelObserved cp' ∉ pre) := by
  induction inputs with
  | nil =>
    intro d
    left
    intro cp
    simp [runTrace]
  | cons inp rest ih =>
    intro d
    by_cases h1 : inp.cancelTop = true
    · right
      refine ⟨[], .loopTop, ?_, ?_⟩
      · simp [runTrace, h1, cancelTail]
      · intro cp'
        simp
    · by_cases h2 : inp.cancelPost = true
      · right
        refine ⟨[.sessionAttempt], .postSession, ?_, ?_⟩
        · simp [runTrace, h1, h2, cancelTail]
        · intro cp'
          simp
      · by_cases h3 : inp.cancelSleep = true
        · right
          refine ⟨.sessionAttempt ::
            (if inp.sessionErr && oe then [.onErrorCall] else []),
            .backoffSleep, ?_, ?_⟩
          · by_cases hoe : (inp.sessionErr && oe) = true <;>
              simp [runTrace, h1, h2, h3, hoe, cancelTail]
          · intro cp'
            by_cases hoe : (inp.sessionErr && oe) = true <;> simp [hoe]
        · rcases ih (nextDelay d) with hno | ⟨pre, cp, heq, hpre⟩
          · left
            intro cp
            by_cases hoe : (inp.sessionErr && oe) = true <;>
              simp [runTrace, h1, h2, h3, hoe, hno cp]
          · right
            refine ⟨.sessionAttempt ::
              ((if inp.sessionErr && oe then [.onErrorCall] else []) ++
                .flush :: .sleep d :: pre), cp, ?_, ?_⟩
            · by_cases hoe : (inp.sessionErr && oe) = true <;>
                simp [runTrace, h1, h2, h3, hoe, heq]
            · intro cp'
              by_cases hoe : (inp.sessionErr && oe) = true <;>
                simp [hoe, hpre cp']

/-- C4 (amended): whenever cancellation is observed at a checkpoint of
`run`'s loop, the loop terminates and performs no further stream-session
attempt.  At the loop-top and post-session checkpoints the loop flushes
pending acks once more after observing cancellation; at the backoff-sleep
checkpoint it terminates without a further flush call, but the unconditional
flush of the same iteration immediately precedes the observation (and no ack
can be queued between the two, the session having already ended), so on every
cancellation path a flush adjacent to the observation ensures already-queued
acknowledgments are issued rather than discarded. -/
theorem run_cancellation_behavior (oe : Bool) (inputs : List IterInput)
    (d : Nat) :
    (RunAction.cancelObserved .loopTop ∈ runTrace oe inputs d →
      ∃ pre, runTrace oe inputs d =
        pre ++ [.cancelObserved .loopTop, .flush, .terminated])
    ∧ (RunAction.cancelObserved .postSession ∈ runTrace oe inputs d →
      ∃ pre, runTrace oe inputs d =
        pre ++ [.cancelObserved .postSession, .flush, .terminated])
    ∧ (RunAction.cancelObserved .backoffSleep ∈ runTrace oe inputs d →
      ∃ pre, runTrace oe inputs d =
        pre ++ [.flush, .cancelObserved .backoffSleep, .terminated])
    ∧ (∀ cp, RunAction.sessionAttempt ∉
        suffixAfter (.cancelObserved cp) (runTrace oe inputs d)) := by
  rcases runTrace_cancel_shape oe inputs d with hno | ⟨pre, cp, heq, hpre⟩
  · refine ⟨fun hm => absurd hm (hno _), fun hm => absurd hm (hno _),
      fun hm => absurd hm (hno _), ?_⟩
    intro cp
    rw [suffixAfter_of_not_mem _ _ (hno cp)]
    simp
  · have hmem : ∀ cp', RunAction.cancelObserved cp' ∈ runTrace oe inputs d →
        cp' = cp := by
      intro cp' hm
      rw [heq] at hm
      rcases List.mem_append.mp hm with hmp | hmt
      · exact absurd hmp (hpre cp')
      · cases cp <;> cases cp' <;> simp_all [cancelTail]
    refine ⟨?_, ?_, ?_, ?_⟩
    · intro hm
      have hc := hmem _ hm
      rw [← hc] at heq
      exact ⟨pre, heq⟩
    · intro hm
      have hc := hmem _ hm
      rw [← hc] at heq
      exact ⟨pre, heq⟩
    · intro hm
      have hc := hmem _ hm
      rw [← hc] at heq
      exact ⟨pre, heq⟩
    · intro cp'
      by_cases hcp : RunAction.cancelObserved cp' ∈ runTrace oe inputs d
      · have hc := hmem cp' hcp
        subst hc
        rw [heq, suffixAfter_append_not_mem _ _ _ (hpre cp')]
        cases cp' <;> decide
      · rw [suffixAfter_of_not_mem _ _ hcp]
        simp

/-- C4 counterexample to the claim as stated: with cancellation firing during
the backoff sleep of the first iteration, the trace ends with the
cancellation observation followed directly by termination — the suffix after
the observation at the backoff-sleep checkpoint contains no flush, so the
loop does not "flush pending acks once more" at that checkpoint (the flush
in the trace precedes the observation). -/
theorem run_cancellation_claim_counterexample :
    runTrace true [⟨false, true, false, true⟩] initialDelay =
      [.sessionAttempt, .onErrorCall, .flush,
        .cancelObserved .backoffSleep, .terminated]
    ∧ suffixAfter (.cancelObserved .backoffSleep)
        (runTrace true [⟨false, true, false, true⟩] initialDelay) =
      [.terminated]
    ∧ RunAction.flush ∉ suffixAfter (.cancelObserved .backoffSleep)
        (runTrace true [⟨false, true, false, true⟩] initialDelay) := by
  decide

/-- Closed instance of C4 via `run_cancellation_behavior`: cancellation
observed at the post-session checkpoint of the first iteration yields no
session attempt after the observation, and the trace is exactly one attempt
followed by the observation, a flush, and termination. -/
theorem run_cancellation_behavior_witness :
    RunAction.sessionAttempt ∉ suffixAfter (.cancelObserved .postSession)
      (runTrace true [⟨false, false, true, false⟩] initialDelay)
    ∧ runTrace true [⟨false, false, true, false⟩] initialDelay =
      [.sessionAttempt, .cancelObserved .postSession, .flush, .terminated] := by
  exact ⟨(run_cancellation_behavior true [⟨false, false, true, false⟩]
    initialDelay).2.2.2 Checkpoint.postSession, by decide⟩

end EmailAPI
